import Mathlib

/-!
A shallow embedding of the SQL expression-tree utilities of
`lib/sqlalchemy/sql/util.py`, with theorems settling the specification's
claims about them.  Python objects are modelled by their identity (a
natural number id) plus the structural attributes the algorithms read;
fallible operations return `Except`; the weak memo dictionary of the
column adapter is an association list.
-/

namespace SqlAlchemyUtil

/-- A column element, identified by its object identity (`id`).
The field `isSingletonConstant` models the Python attribute
marking the NULL/TRUE/FALSE singleton constants
(true exactly for those singletons). -/
structure Col where
  id : Nat
  isSingletonConstant : Bool
deriving DecidableEq, Repr

/-- The function `ClauseAdapter.replace` (util.py lines 1138-1208),
restricted to `ColumnElement` arguments and to the default adapter
configuration (no `equivalents`, no `include_fn`/`exclude_fn`, no
`adapt_from_selectables`, `adapt_on_names=False`, no annotations).
In that configuration the `_corresponding_column col require_embedded=True`
call at the end is exactly `selectable.corresponding_column`.
Modelled from the spec: `corresponding_column` lives in the out-of-scope
selectable layer and is abstracted as the parameter `corr`, a function
from a column to the optional counterpart column in the target selectable. -/
def ClauseAdapter.replace (corr : Col → Option Col)
    (includeSingletonConstants : Bool) (col : Col) : Option Col :=
  if !includeSingletonConstants && col.isSingletonConstant then
    -- dont swap out NULL, TRUE, FALSE (util.py lines 1176-1183)
    none
  else
    corr col

/-- The immutable-column path of `ColumnAdapter._locate_col` (util.py
lines 1357-1399) for an unwrapped adapter with `adapt_required=False`
and no chained visitors: `replace` is invoked with
`_include_singleton_constants=True`, and the column itself is the
result when no substitution is found. -/
def ColumnAdapter.locate_col (corr : Col → Option Col) (col : Col) : Col :=
  match ClauseAdapter.replace corr true col with
  | some c => c
  | none => col

/-- The wrapped-adapter path of `ColumnAdapter._locate_col`: for
`W = A.wrap(B)` (util.py lines 1310-1318) the object `W` is a copy of
`A` with `_wrap = B`, so `W._locate_col(col)` first applies W's own
replacement (A's configuration) obtaining `c`, and then, since
`self._wrap` is set, computes `c2 = B._locate_col(c)` and keeps `c2`
whenever it is not None — which, with `adapt_required=False`, it
never is (util.py lines 1370-1399). -/
def ColumnAdapter.locate_col_wrapped
    (corrSelf corrWrapped : Col → Option Col) (col : Col) : Col :=
  ColumnAdapter.locate_col corrWrapped (ColumnAdapter.locate_col corrSelf col)

/-- Modelled from the spec: the specification's description of wrapping —
the derived adapter "tries the wrapped adapter first and, only if it
returns no match, applies its own mapping" — written as a definition to
be compared with the code's `ColumnAdapter.locate_col_wrapped`. -/
def ColumnAdapter.locate_col_wrapped_spec
    (corrSelf corrWrapped : Col → Option Col) (col : Col) : Col :=
  match corrWrapped col with
  | some c => c
  | none => ColumnAdapter.locate_col corrSelf col

/-- Modelled from the spec: the persistent memoized column mapping
(`self.columns`, a `WeakPopulateDict` keyed by column identity,
util.py line 1288), as an association list from column to adapted
column.  The weak (non-owning) aspect of the cache is not representable
in a pure embedding and does not affect lookup results. -/
abbrev Memo := List (Col × Col)

/-- Lookup in the memoized column mapping, keyed by column identity. -/
def memoFind (m : Memo) (col : Col) : Option Col :=
  match m with
  | [] => none
  | (k, v) :: rest => if k = col then some v else memoFind rest col

/-- The method `ColumnAdapter.traverse` (util.py lines 1328-1331):
`self.columns[obj]` returns the memoized adapted column when present,
otherwise computes it with `_locate_col` and records it in the memo
(populate-on-miss).  The updated memo is returned with the result. -/
def ColumnAdapter.traverse (corr : Col → Option Col) (m : Memo)
    (col : Col) : Col × Memo :=
  match memoFind m col with
  | some c => (c, m)
  | none =>
    let c := ColumnAdapter.locate_col corr col
    (c, (col, c) :: m)

/-- A memo is well-formed when every entry records exactly the value
`_locate_col` computes for its key — the invariant the populate-on-miss
dictionary maintains. -/
def WfMemo (corr : Col → Option Col) (m : Memo) : Prop :=
  ∀ p ∈ m, p.2 = ColumnAdapter.locate_col corr p.1

/-- A concrete correspondence for witnesses: every column corresponds
to the target's column with id 1. -/
def corrW1 : Col → Option Col := fun _ => some ⟨1, false⟩

/-- A concrete correspondence used for the wrapping counterexample:
the outer adapter maps the column with id 0 to the column with id 1. -/
def corrA3 : Col → Option Col := fun c => if c.id = 0 then some ⟨1, false⟩ else none

/-- A concrete correspondence used for the wrapping counterexample:
the wrapped adapter maps the column with id 0 to the column with id 2
and has no match for anything else. -/
def corrB3 : Col → Option Col := fun c => if c.id = 0 then some ⟨2, false⟩ else none

/-- A concrete correspondence for the singleton-constant claim: the
target selectable has a corresponding column (id 5) for everything,
including the singleton constants. -/
def corrS4 : Col → Option Col := fun _ => some ⟨5, false⟩

/-- A singleton-constant column (for example the NULL singleton),
with object identity 9. -/
def nullCol : Col := ⟨9, true⟩

/-- The schema/metadata attributes the column-reduction algorithms read,
with columns referred to by object identity.  Modelled from the spec:
proxy sets, column names, foreign keys and text-clause status live in
the out-of-scope expression and schema layers.  A foreign key is
recorded as `some target` when its referenced column resolves, and as
`none` when resolution fails with a missing-table or missing-column
error. -/
structure ColEnv where
  name : Nat → String
  proxySet : Nat → List Nat
  fks : Nat → List (Option Nat)
  isText : Nat → Bool

/-- Modelled from the spec: `shares_lineage` holds when the proxy sets
of the two columns intersect. -/
def sharesLineage (env : ColEnv) (a b : Nat) : Bool :=
  (env.proxySet a).any (fun x => (env.proxySet b).contains x)

/-- The `util.OrderedSet(columns)` constructor: the insertion-order
preserving set of the input, keeping the first occurrence of each
column. -/
def orderedDedupAux (seen : List Nat) : List Nat → List Nat
  | [] => []
  | c :: rest =>
    if seen.contains c then orderedDedupAux seen rest
    else c :: orderedDedupAux (c :: seen) rest

/-- See `orderedDedupAux`: insertion-ordered set of a column list. -/
def orderedDedup (l : List Nat) : List Nat := orderedDedupAux [] l

/-- `cset_no_text` in `reduce_columns` (util.py lines 926-929): the
ordered column set with text-clause pseudo-columns removed. -/
def csetNoText (env : ColEnv) (columns : List Nat) : List Nat :=
  (orderedDedup columns).filter (fun c => !env.isText c)

/-- The iterator `chain(*[c.foreign_keys for c in col.proxy_set])`
(util.py line 933): all foreign keys of all proxy-set members of a
column. -/
def proxyFks (env : ColEnv) (col : Nat) : List (Option Nat) :=
  ((env.proxySet col).map env.fks).flatten

/-- The inner `for c in cset_no_text` loop of `reduce_columns`
(util.py lines 934-957) for a single foreign key `fk` of the column
`col`: skip `col` itself; resolving `fk` raises the
unresolved-reference error unless `ignore_nonexistent_tables` is set
(in which case the pair is skipped); a resolved target that shares
lineage with `c` (subject to `only_synonyms`) omits `col` and stops the
scan.  Returns whether `col` is to be omitted. -/
def fkScan (env : ColEnv) (ignoreNonexistentTables onlySynonyms : Bool)
    (col : Nat) (fk : Option Nat) : List Nat → Except Unit Bool
  | [] => .ok false
  | c :: rest =>
    if c = col then fkScan env ignoreNonexistentTables onlySynonyms col fk rest
    else
      match fk with
      | none =>
        if ignoreNonexistentTables then
          fkScan env ignoreNonexistentTables onlySynonyms col fk rest
        else .error ()
      | some fkCol =>
        if sharesLineage env fkCol c &&
            (!onlySynonyms || env.name c == env.name col) then
          .ok true
        else fkScan env ignoreNonexistentTables onlySynonyms col fk rest

/-- The `for fk in chain(...)` loop of `reduce_columns` for one column:
the `break` in the source leaves only the inner loop, so later foreign
keys are still scanned (and can still raise) after the column is
already known to be omitted. -/
def colScan (env : ColEnv) (ignoreNonexistentTables onlySynonyms : Bool)
    (cset : List Nat) (col : Nat) : List (Option Nat) → Except Unit Bool
  | [] => .ok false
  | fk :: rest =>
    match fkScan env ignoreNonexistentTables onlySynonyms col fk cset with
    | .error e => .error e
    | .ok b =>
      match colScan env ignoreNonexistentTables onlySynonyms cset col rest with
      | .error e => .error e
      | .ok b2 => .ok (b || b2)

/-- Insertion into the `omit` column set (`omit.add(col)`). -/
def addToSet (s : List Nat) (c : Nat) : List Nat :=
  if s.contains c then s else s ++ [c]

/-- The outer `for col in cset_no_text` loop of `reduce_columns`
(util.py lines 932-957), accumulating the `omit` set. -/
def omitScan (env : ColEnv) (ignoreNonexistentTables onlySynonyms : Bool)
    (cset : List Nat) : List Nat → List Nat → Except Unit (List Nat)
  | [], oset => .ok oset
  | col :: rest, oset =>
    match colScan env ignoreNonexistentTables onlySynonyms cset col
        (proxyFks env col) with
    | .error e => .error e
    | .ok b =>
      omitScan env ignoreNonexistentTables onlySynonyms cset rest
        (if b then addToSet oset col else oset)

/-- Operator classes a binary expression can carry, as the reduction
and pair-collection algorithms distinguish them. -/
inductive BOp where
  | eq
  | other
deriving DecidableEq, Repr

/-- A binary expression over column elements, reduced to the attributes
the algorithms read: the operator class and the object identities of
its two sides.  A traversed clause is represented by the sequence of
binary nodes its depth-first traversal visits (modelled from the spec:
`visitors.traverse` is the out-of-scope traversal engine). -/
structure BinaryExpr where
  op : BOp
  left : Nat
  right : Nat
deriving DecidableEq, Repr

/-- `visit_binary` inside `reduce_columns` (util.py lines 961-974):
for an equality binary whose two sides both lie in the union of proxy
sets of the still-kept columns, scan `cset_no_text` in reverse
insertion order and omit the first column that shares lineage with the
right side (subject to `only_synonyms` name matching against the left
side). -/
def reduceBinary (env : ColEnv) (onlySynonyms : Bool) (cset : List Nat)
    (oset : List Nat) (b : BinaryExpr) : List Nat :=
  if b.op = BOp.eq then
    let kept := cset.filter (fun c => !oset.contains c)
    let cols := (kept.map env.proxySet).flatten
    if cols.contains b.left && cols.contains b.right then
      match cset.reverse.find? (fun c =>
          sharesLineage env c b.right &&
          (!onlySynonyms || env.name c == env.name b.left)) with
      | some c => addToSet oset c
      | none => oset
    else oset
  else oset

/-- The `for clause in clauses` traversal phase of `reduce_columns`
(util.py lines 976-978); a `None` clause contributes no binary nodes
and is represented by the empty sequence. -/
def reduceClauses (env : ColEnv) (onlySynonyms : Bool) (cset : List Nat)
    (oset : List Nat) (clauses : List (List BinaryExpr)) : List Nat :=
  clauses.foldl (fun om clause => clause.foldl (reduceBinary env onlySynonyms cset) om) oset

/-- `reduce_columns(columns, *clauses, ...)` (util.py lines 899-980):
drop the redundant columns from the insertion-ordered input set —
redundant through a foreign key whose target shares lineage with
another column of the set, or through an equality predicate of the
given join clauses. -/
def reduce_columns (env : ColEnv) (columns : List Nat)
    (clauses : List (List BinaryExpr))
    (ignoreNonexistentTables onlySynonyms : Bool) :
    Except Unit (List Nat) :=
  match omitScan env ignoreNonexistentTables onlySynonyms
      (csetNoText env columns) (csetNoText env columns) [] with
  | .error e => .error e
  | .ok oset =>
    -- column_set.difference(omit): the ordered input set (text clauses
    -- included) minus the omitted columns
    .ok ((orderedDedup columns).filter (fun c =>
      !(reduceClauses env onlySynonyms (csetNoText env columns) oset
          clauses).contains c))

/-- The three-column schema of the specification's reduction example:
column 1 is `t1.id`, column 2 is `t2.id`, column 3 is `t2.t1_id` with a
foreign key whose target is column 1; every proxy set is the column
itself. -/
def envC2 : ColEnv where
  name := fun c =>
    if c = 1 then "id" else if c = 2 then "id" else
    if c = 3 then "t1_id" else ""
  proxySet := fun c => [c]
  fks := fun c => if c = 3 then [some 1] else []
  isText := fun _ => false

/-- A schema where columns 1 and 2 are two aliases of the same base
column 0 (their proxy sets overlap in 0) and no foreign keys exist;
used to observe the reverse-insertion-order scan of the join-clause
phase. -/
def envC2b : ColEnv where
  name := fun _ => ""
  proxySet := fun c => if c = 1 then [1, 0] else if c = 2 then [2, 0] else [c]
  fks := fun _ => []
  isText := fun _ => false

/-- A schema where column 7 carries a foreign key whose referenced
column cannot be resolved; all other columns are plain. -/
def envC8 : ColEnv where
  name := fun _ => ""
  proxySet := fun c => [c]
  fks := fun c => if c = 7 then [none] else []
  isText := fun _ => false

/-- Python truthiness of an optional column set as the
`criterion_as_pairs` guard tests it (util.py line 991): `None` and the
empty set are both falsy. -/
def truthy : Option (List Nat) → Bool
  | none => false
  | some l => !l.isEmpty

/-- The `visit_binary` callback of `criterion_as_pairs` (util.py lines
1002-1039) for one binary node, appending the located
`(referenced, referencing)` pairs.  `col_is` — `a.compare(b)`,
structural comparison — is modelled as identity of column ids;
`references` models the schema-declared foreign-key direction relation
(modelled from the spec: `Column.references` lives in the out-of-scope
schema layer).  Every side is a column element, and for the default
branch a schema column. -/
def visitBinaryPairs (references : Nat → Nat → Bool)
    (cafk cark : Option (List Nat)) (anyOp : Bool)
    (pairs : List (Nat × Nat)) (b : BinaryExpr) : List (Nat × Nat) :=
  if !anyOp && !(b.op = BOp.eq) then pairs
  else if truthy cafk then
    let s := cafk.getD []
    if s.contains b.left && (b.right = b.left || !s.contains b.right) then
      pairs ++ [(b.right, b.left)]
    else if s.contains b.right && (b.left = b.right || !s.contains b.left) then
      pairs ++ [(b.left, b.right)]
    else pairs
  else if truthy cark then
    let s := cark.getD []
    if s.contains b.left && (b.right = b.left || !s.contains b.right) then
      pairs ++ [(b.left, b.right)]
    else if s.contains b.right && (b.left = b.right || !s.contains b.left) then
      pairs ++ [(b.right, b.left)]
    else pairs
  else
    if references b.left b.right then pairs ++ [(b.right, b.left)]
    else if references b.right b.left then pairs ++ [(b.left, b.right)]
    else pairs

/-- `criterion_as_pairs(expression, ...)` (util.py lines 983-1043):
raise `ArgumentError` when both consider-as sets are (truthily)
supplied, otherwise traverse the expression's binary nodes collecting
referenced/referencing pairs.  The expression is represented by the
sequence of binary nodes its traversal visits. -/
def criterion_as_pairs (references : Nat → Nat → Bool)
    (binaries : List BinaryExpr)
    (cafk cark : Option (List Nat)) (anyOp : Bool) :
    Except Unit (List (Nat × Nat)) :=
  if truthy cafk && truthy cark then .error ()
  else .ok (binaries.foldl (visitBinaryPairs references cafk cark anyOp) [])

/-- Order-by expression nodes, by the classes `unwrap_order_by`
distinguishes.  `unary` is a `UnaryExpression` whose `orderMod` flag
records `operators.is_ordering_modifier(modifier)` (true for the
ASC/DESC/NULLS FIRST/NULLS LAST modifiers); `labelRef` is
`_label_reference`; `textLabelRef` is `_textual_label_reference`;
`scalarSelect` is an opaque scalar subquery; `clauseList` stands for a
non-ColumnElement clause whose children are traversed (a list of two
order-by elements; longer lists are modelled by nesting). -/
inductive OExpr where
  | col (id : Nat)
  | unary (orderMod : Bool) (elem : OExpr)
  | label (name : String) (elem : OExpr)
  | grouping (elem : OExpr)
  | labelRef (elem : OExpr)
  | textLabelRef (name : String)
  | scalarSelect (id : Nat)
  | clauseList (a b : OExpr)
deriving DecidableEq, Repr

/-- Structural size of an order-by expression — the termination measure
of the unwrap queue. -/
def osize : OExpr → Nat
  | .col _ => 1
  | .unary _ e => osize e + 1
  | .label _ e => osize e + 1
  | .grouping e => osize e + 1
  | .labelRef e => osize e + 1
  | .textLabelRef _ => 1
  | .scalarSelect _ => 1
  | .clauseList a b => osize a + osize b + 1

/-- The final record step of the `unwrap_order_by` loop (util.py lines
406-408): append the element to the result once, in first-encounter
order; `cols` is the membership set paired with the result list. -/
def pushResult (cols result : List OExpr) (u : OExpr) :
    List OExpr × List OExpr :=
  if u ∈ cols then (cols, result) else (u :: cols, result ++ [u])

/-- The deque loop of `unwrap_order_by` (util.py lines 369-413): a FIFO
queue seeded with the clause.  A label over anything but a scalar
subquery is unwrapped (through one grouping) and re-queued; a label
reference is unwrapped and re-queued; a textual label reference is
dropped; a unary carrying an ordering modifier — like any
non-ColumnElement — has its children re-queued; every other element is
a result column expression, recorded by `pushResult`.  The source's
single catch-all label branch is spelled out per inner constructor so
that every equation is unconditional. -/
def unwrapLoop : List OExpr → List OExpr → List OExpr → List OExpr
  | [], _, result => result
  | t :: rest, cols, result =>
    match t with
    | .label _ (.grouping g) => unwrapLoop (rest ++ [g]) cols result
    | .label nm (.scalarSelect i) =>
      -- a Label over a ScalarSelect is not unwrapped: it is itself recorded
      unwrapLoop rest (pushResult cols result (.label nm (.scalarSelect i))).1
        (pushResult cols result (.label nm (.scalarSelect i))).2
    | .label _ (.col i) => unwrapLoop (rest ++ [.col i]) cols result
    | .label _ (.unary m e) => unwrapLoop (rest ++ [.unary m e]) cols result
    | .label _ (.label nm2 e) => unwrapLoop (rest ++ [.label nm2 e]) cols result
    | .label _ (.labelRef e) => unwrapLoop (rest ++ [.labelRef e]) cols result
    | .label _ (.textLabelRef nm2) =>
      unwrapLoop (rest ++ [.textLabelRef nm2]) cols result
    | .label _ (.clauseList a b) =>
      unwrapLoop (rest ++ [.clauseList a b]) cols result
    | .labelRef e => unwrapLoop (rest ++ [e]) cols result
    | .textLabelRef _ => unwrapLoop rest cols result
    | .unary true e => unwrapLoop (rest ++ [e]) cols result
    | .clauseList a b => unwrapLoop (rest ++ [a, b]) cols result
    | .unary false e =>
      unwrapLoop rest (pushResult cols result (.unary false e)).1
        (pushResult cols result (.unary false e)).2
    | .col i =>
      unwrapLoop rest (pushResult cols result (.col i)).1
        (pushResult cols result (.col i)).2
    | .grouping e =>
      unwrapLoop rest (pushResult cols result (.grouping e)).1
        (pushResult cols result (.grouping e)).2
    | .scalarSelect i =>
      unwrapLoop rest (pushResult cols result (.scalarSelect i)).1
        (pushResult cols result (.scalarSelect i)).2
termination_by q _ _ => (q.map osize).sum
decreasing_by
  all_goals simp [osize, List.map_append, List.sum_append]
  all_goals omega

/-- `unwrap_order_by(clause)` (util.py lines 369-413): break an
order-by expression into its individual column expressions, stripping
ordering modifiers and label indirection. -/
def unwrap_order_by (clause : OExpr) : List OExpr :=
  unwrapLoop [clause] [] []

/-- A limit/offset value as `_make_slice` manipulates it: a plain
integer (identified with an integer-valued literal clause, which
`_offset_or_limit_clause_asint_if_possible` converts back to its
integer), an opaque SQL expression, or the SQL-level addition built
when `offset + start` must be deferred to SQL. -/
inductive OLC where
  | lit (n : Int)
  | sqlExpr (id : Nat)
  | add (e : OLC) (n : Int)
deriving DecidableEq, Repr

/-- `_offset_or_limit_clause_asint_if_possible` (util.py lines
1427-1440): `None` passes through; a clause carrying a plain integer
value is returned as that integer; any other clause passes through
unchanged. -/
def asintIfPossible : Option OLC → Option OLC
  | none => none
  | some (.lit n) => some (.lit n)
  | some e => some e

/-- `_offset_or_limit_clause` (util.py lines 1411-1424): coerce an
integer to a literal limit/offset clause and pass an expression
through.  Modelled from the spec: the coercion layer is out of scope,
and integers are identified with integer literal clauses, so the
coercion is the identity of the model. -/
def offsetOrLimitClause (c : OLC) : OLC := c

/-- The Python addition `offset_clause + start` (util.py lines 1466
and 1486): integer addition when the offset is a plain integer,
otherwise a SQL-level addition expression built on the clause. -/
def olcAdd (c : OLC) (s : Int) : OLC :=
  match c with
  | .lit n => .lit (n + s)
  | e => .add e s

/-- The Python test `offset_clause == 0` as the `if` evaluates it
(util.py lines 1468 and 1488): true for the integer 0; for a SQL
expression the `==` builds a binary expression whose truth value is the
structural comparison against the literal 0, which is false.  Modelled
from the spec: the comparison semantics live in the out-of-scope
elements layer. -/
def olcEqZero : OLC → Bool
  | .lit n => n = 0
  | _ => false

/-- The offset computation `_make_slice` performs when `start` is
given — the same code appears in the both-bounds branch (util.py lines
1459-1472) and in the start-only branch (lines 1479-1493): read the
base offset as an integer if possible, default it to 0, add `start`
when it is non-zero, and emit no offset clause when the result compares
equal to 0. -/
def sliceOffset (offset : Option OLC) (st : Int) : Option OLC :=
  if olcEqZero (if st ≠ 0 then
      olcAdd ((asintIfPossible offset).getD (.lit 0)) st
    else
      (asintIfPossible offset).getD (.lit 0)) then
    none
  else
    some (offsetOrLimitClause (if st ≠ 0 then
      olcAdd ((asintIfPossible offset).getD (.lit 0)) st
    else
      (asintIfPossible offset).getD (.lit 0)))

/-- `_make_slice(limit_clause, offset_clause, start, stop)` (util.py
lines 1443-1495): compute the LIMIT/OFFSET pair of a Python slice.
`start` and `stop` are optional plain integers (the signature types
them `int` but the code tests them against `None`). -/
def _make_slice (limit offset : Option OLC) (start stop : Option Int) :
    Option OLC × Option OLC :=
  match start, stop with
  | some st, some sp =>
    (some (offsetOrLimitClause (.lit (sp - st))), sliceOffset offset st)
  | none, some sp => (some (offsetOrLimitClause (.lit sp)), offset)
  | some st, none => (limit, sliceOffset offset st)
  | none, none => (limit, offset)

/-- A FROM clause as `find_left_clause_to_join_from` reads it: its
object identity, its exported columns (`f.c`, as column ids), and the
identities of the FROM clauses it hides — the result of
`_expand_cloned(f._hide_froms)`, already expanded (modelled from the
spec: `_hide_froms` and clone expansion live in the out-of-scope
selectable layer). -/
structure FC where
  id : Nat
  cols : List Nat
  hideFroms : List Nat
deriving DecidableEq, Repr

/-- The candidate-narrowing passes of `find_left_clause_to_join_from`
(util.py lines 217-248): a clause `f` is a candidate when some
selectable `s` of the join target other than `f` itself either — when
disambiguating (more than one clause and an ON clause given) — makes
`set(f.c).union(s.c)` a superset of the ON clause's columns, or
otherwise passes `onclause is not None or Join._can_join(f, s)`; when
more than one candidate remains, indexes of clauses hidden by another
clause are removed.  `_from_objects(join_to)` and `Join._can_join` are
modelled from the spec as parameters; `onclauseCols` is
`_find_columns(onclause)`, `none` when no ON clause was given. -/
def narrowedIdx (clauses : List FC) (joinToFroms : List FC)
    (onclauseCols : Option (List Nat)) (canJoin : FC → FC → Bool) :
    List Nat :=
  let resolveAmbiguity := decide (clauses.length > 1) && onclauseCols.isSome
  let idx := ((clauses.enum).filter (fun p =>
    (joinToFroms.filter (fun s => !(s = p.2))).any (fun s =>
      if resolveAmbiguity then
        (onclauseCols.getD []).all (fun c =>
          p.2.cols.contains c || s.cols.contains c)
      else
        onclauseCols.isSome || canJoin p.2 s))).map (fun p => p.1)
  if idx.length > 1 then
    let toremove := (clauses.map FC.hideFroms).flatten
    idx.filter (fun i => !(toremove.contains ((clauses.getD i ⟨0, [], []⟩).id)))
  else idx

/-- `find_left_clause_to_join_from(clauses, join_to, onclause)`
(util.py lines 201-255): the narrowed candidate indexes, except that
when no candidate resolved and an ON clause was given, every index is
returned. -/
def find_left_clause_to_join_from (clauses : List FC) (joinToFroms : List FC)
    (onclauseCols : Option (List Nat)) (canJoin : FC → FC → Bool) :
    List Nat :=
  if (narrowedIdx clauses joinToFroms onclauseCols canJoin).isEmpty &&
      onclauseCols.isSome then
    List.range clauses.length
  else
    narrowedIdx clauses joinToFroms onclauseCols canJoin

end SqlAlchemyUtil

namespace SqlAlchemyUtil

theorem memoFind_wf (corr : Col → Option Col) (m : Memo)
    (hm : WfMemo corr m) (col c : Col) (h : memoFind m col = some c) :
    c = ColumnAdapter.locate_col corr col := by
  induction m with
  | nil => simp [memoFind] at h
  | cons p rest ih =>
    obtain ⟨k, v⟩ := p
    by_cases hk : k = col
    · have hv : v = ColumnAdapter.locate_col corr col := by
        have h2 := hm (k, v) (by simp)
        rwa [hk] at h2
      simp [memoFind, hk] at h
      rw [← h]
      exact hv
    · simp [memoFind, hk] at h
      exact ih (fun q hq => hm q (by simp [hq])) h

theorem traverse_fst (corr : Col → Option Col) (m : Memo) (col : Col)
    (hm : WfMemo corr m) :
    (ColumnAdapter.traverse corr m col).1 =
      ColumnAdapter.locate_col corr col := by
  unfold ColumnAdapter.traverse
  cases h : memoFind m col with
  | none => simp
  | some c =>
    simp only []
    exact memoFind_wf corr m hm col c h

theorem traverse_wf (corr : Col → Option Col) (m : Memo) (col : Col)
    (hm : WfMemo corr m) :
    WfMemo corr (ColumnAdapter.traverse corr m col).2 := by
  unfold ColumnAdapter.traverse
  cases h : memoFind m col with
  | none =>
    intro p hp
    simp at hp
    rcases hp with hp | hp
    · simp [hp]
    · exact hm p hp
  | some c => simpa using hm

theorem replace_include_true (corr : Col → Option Col) (col : Col) :
    ClauseAdapter.replace corr true col = corr col := by
  simp [ClauseAdapter.replace]

theorem locate_col_eq (corr : Col → Option Col) (col : Col) :
    ColumnAdapter.locate_col corr col = (corr col).getD col := by
  unfold ColumnAdapter.locate_col
  rw [replace_include_true]
  cases corr col <;> rfl

theorem locate_col_idem (corr : Col → Option Col)
    (hcorr : ∀ a b, corr a = some b → corr b = some b) (col : Col) :
    ColumnAdapter.locate_col corr (ColumnAdapter.locate_col corr col) =
      ColumnAdapter.locate_col corr col := by
  simp only [locate_col_eq]
  cases h : corr col with
  | none => simp [h]
  | some c => simp [h, hcorr col c h]

/-- C1: for every column expression and every column adapter (modelled
at its default configuration, with the target selectable's
`corresponding_column` abstracted as `corr`, assumed to map each of the
target's own columns to itself), adapting twice through the same adapter
yields the identical object — `A.traverse (A.traverse c)` is
`A.traverse c` — and repeated adaptation of the same column identity
returns the same memoized adapted object. -/
theorem claim_C1_column_adapter_idempotent
    (corr : Col → Option Col) (m : Memo) (c : Col)
    (hcorr : ∀ a b, corr a = some b → corr b = some b)
    (hm : WfMemo corr m) :
    (ColumnAdapter.traverse corr (ColumnAdapter.traverse corr m c).2
        (ColumnAdapter.traverse corr m c).1).1 =
      (ColumnAdapter.traverse corr m c).1 ∧
    (ColumnAdapter.traverse corr (ColumnAdapter.traverse corr m c).2 c).1 =
      (ColumnAdapter.traverse corr m c).1 := by
  have hm1 := traverse_wf corr m c hm
  have h1 := traverse_fst corr m c hm
  constructor
  · rw [traverse_fst corr _ _ hm1, h1, locate_col_idem corr hcorr]
  · rw [traverse_fst corr _ _ hm1, h1]

/-- Witness for C1: a concrete adapter mapping everything to the column
with id 1, applied twice to the column with id 0, starting from the
empty memo. -/
theorem claim_C1_witness :
    (ColumnAdapter.traverse corrW1 [] ⟨0, false⟩).1 = ⟨1, false⟩ ∧
    (ColumnAdapter.traverse corrW1 (ColumnAdapter.traverse corrW1 [] ⟨0, false⟩).2
        (ColumnAdapter.traverse corrW1 [] ⟨0, false⟩).1).1 =
      (ColumnAdapter.traverse corrW1 [] ⟨0, false⟩).1 := by
  refine ⟨rfl, ?_⟩
  exact (claim_C1_column_adapter_idempotent corrW1 [] ⟨0, false⟩
    (fun a b h => by simp [corrW1] at h ⊢; exact h)
    (fun p hp => by simp at hp)).1

/-- C3 counterexample: with the outer adapter mapping column 0 to
column 1 and the wrapped adapter mapping column 0 to column 2, the
wrapped adapter does produce a substitution for column 0, yet the
code's wrapped lookup returns column 1 (the outer adapter's result
passed through the wrapped adapter), not column 2 as the claim's
wrapped-first resolution order would give. -/
theorem claim_C3_counterexample :
    corrB3 ⟨0, false⟩ = some ⟨2, false⟩ ∧
    ColumnAdapter.locate_col_wrapped corrA3 corrB3 ⟨0, false⟩ = ⟨1, false⟩ ∧
    ColumnAdapter.locate_col_wrapped_spec corrA3 corrB3 ⟨0, false⟩ = ⟨2, false⟩ ∧
    ColumnAdapter.locate_col_wrapped corrA3 corrB3 ⟨0, false⟩ ≠
      ColumnAdapter.locate_col_wrapped_spec corrA3 corrB3 ⟨0, false⟩ := by
  refine ⟨rfl, rfl, rfl, ?_⟩
  decide

/-- C3 amended: a wrapped adapter `W = A.wrap(B)` resolves a column by
applying A's own replacement first and then passing the result through
the wrapped adapter B; B's resolution of A's output determines the
final result, falling back to A's output when B has no match for it. -/
theorem claim_C3_wrap_applies_own_then_wrapped
    (corrSelf corrWrapped : Col → Option Col) (col : Col) :
    (∀ b, corrWrapped (ColumnAdapter.locate_col corrSelf col) = some b →
      ColumnAdapter.locate_col_wrapped corrSelf corrWrapped col = b) ∧
    (corrWrapped (ColumnAdapter.locate_col corrSelf col) = none →
      ColumnAdapter.locate_col_wrapped corrSelf corrWrapped col =
        ColumnAdapter.locate_col corrSelf col) := by
  constructor
  · intro b h
    rw [ColumnAdapter.locate_col_wrapped, locate_col_eq _ (ColumnAdapter.locate_col corrSelf col), h]
    rfl
  · intro h
    rw [ColumnAdapter.locate_col_wrapped, locate_col_eq _ (ColumnAdapter.locate_col corrSelf col), h]
    rfl

/-- Witness for C3: the amended pipeline at concrete inputs — a
wrapped adapter that maps the outer adapter's output, and one that has
no match for it. -/
theorem claim_C3_witness :
    ColumnAdapter.locate_col_wrapped corrA3 corrW1 ⟨0, false⟩ = ⟨1, false⟩ ∧
    ColumnAdapter.locate_col_wrapped corrA3 corrB3 ⟨3, false⟩ = ⟨3, false⟩ := by
  constructor
  · exact (claim_C3_wrap_applies_own_then_wrapped corrA3 corrW1 ⟨0, false⟩).1
      ⟨1, false⟩ rfl
  · exact (claim_C3_wrap_applies_own_then_wrapped corrA3 corrB3 ⟨3, false⟩).2 rfl

/-- C4 counterexample: the singleton constant with id 9 is substituted
by the column adapter's lookup (which calls `replace` with
`_include_singleton_constants=True`), contradicting the claim that no
adapter ever substitutes a singleton constant. -/
theorem claim_C4_counterexample :
    nullCol.isSingletonConstant = true ∧
    ColumnAdapter.locate_col corrS4 nullCol = ⟨5, false⟩ ∧
    ColumnAdapter.locate_col corrS4 nullCol ≠ nullCol := by
  refine ⟨rfl, rfl, ?_⟩
  decide

/-- C4 amended: `ClauseAdapter.replace`, at its default
`_include_singleton_constants=False`, returns no substitution for a
singleton constant (NULL/TRUE/FALSE), so plain clause adaptation leaves
them unchanged; `ColumnAdapter._locate_col`, however, invokes `replace`
with `_include_singleton_constants=True`, so a singleton constant is
substituted exactly when the target selectable has a corresponding
column for it. -/
theorem claim_C4_singleton_constants
    (corr : Col → Option Col) (col : Col)
    (hsing : col.isSingletonConstant = true) :
    ClauseAdapter.replace corr false col = none ∧
    ColumnAdapter.locate_col corr col = (corr col).getD col := by
  constructor
  · simp [ClauseAdapter.replace, hsing]
  · exact locate_col_eq corr col

theorem fkScan_ignore_ok (env : ColEnv) (syn : Bool) (col : Nat)
    (fk : Option Nat) (cset : List Nat) :
    ∃ b, fkScan env true syn col fk cset = .ok b := by
  induction cset with
  | nil => exact ⟨false, rfl⟩
  | cons c rest ih =>
    by_cases hc : c = col
    · simpa [fkScan, hc] using ih
    · cases fk with
      | none => simpa [fkScan, hc] using ih
      | some fkCol =>
        by_cases hs : (sharesLineage env fkCol c &&
            (!syn || env.name c == env.name col)) = true
        · exact ⟨true, by simp [fkScan, hc, hs]⟩
        · simpa [fkScan, hc, hs] using ih

theorem colScan_ignore_ok (env : ColEnv) (syn : Bool) (cset : List Nat)
    (col : Nat) (fks : List (Option Nat)) :
    ∃ b, colScan env true syn cset col fks = .ok b := by
  induction fks with
  | nil => exact ⟨false, rfl⟩
  | cons fk rest ih =>
    obtain ⟨b1, h1⟩ := fkScan_ignore_ok env syn col fk cset
    obtain ⟨b2, h2⟩ := ih
    exact ⟨b1 || b2, by simp [colScan, h1, h2]⟩

theorem omitScan_ignore_ok (env : ColEnv) (syn : Bool) (cset : List Nat) :
    ∀ (toGo oset : List Nat),
    ∃ r, omitScan env true syn cset toGo oset = .ok r := by
  intro toGo
  induction toGo with
  | nil => exact fun oset => ⟨oset, rfl⟩
  | cons col rest ih =>
    intro oset
    obtain ⟨b, hb⟩ := colScan_ignore_ok env syn cset col (proxyFks env col)
    obtain ⟨r, hr⟩ := ih (if b then addToSet oset col else oset)
    exact ⟨r, by simp [omitScan, hb, hr]⟩

theorem fkScan_error (env : ColEnv) (syn : Bool) (col c' : Nat) :
    ∀ cset : List Nat, c' ∈ cset → c' ≠ col →
    fkScan env false syn col none cset = .error () := by
  intro cset
  induction cset with
  | nil => intro hc _; cases hc
  | cons a rest ih =>
    intro hc hne
    by_cases ha : a = col
    · have hm : c' ∈ rest := by
        rcases List.mem_cons.mp hc with h | h
        · exact absurd (h.trans ha) hne
        · exact h
      simpa [fkScan, ha] using ih hm hne
    · simp [fkScan, ha]

theorem colScan_error (env : ColEnv) (syn : Bool) (cset : List Nat)
    (col c' : Nat) (hc : c' ∈ cset) (hne : c' ≠ col) :
    ∀ fks : List (Option Nat), none ∈ fks →
    colScan env false syn cset col fks = .error () := by
  intro fks
  induction fks with
  | nil => intro h; cases h
  | cons fk rest ih =>
    intro h
    rcases List.mem_cons.mp h with h1 | h1
    · rw [← h1]
      simp [colScan, fkScan_error env syn col c' cset hc hne]
    · cases hfk : fkScan env false syn col fk cset with
      | error e => cases e; simp [colScan, hfk]
      | ok b => simp [colScan, hfk, ih h1]

theorem omitScan_error (env : ColEnv) (syn : Bool) (cset : List Nat)
    (col : Nat)
    (herr : colScan env false syn cset col (proxyFks env col) = .error ()) :
    ∀ (toGo oset : List Nat), col ∈ toGo →
    omitScan env false syn cset toGo oset = .error () := by
  intro toGo
  induction toGo with
  | nil => intro oset h; cases h
  | cons a rest ih =>
    intro oset h
    by_cases ha : a = col
    · subst ha; simp [omitScan, herr]
    · have hm : col ∈ rest := by
        rcases List.mem_cons.mp h with h1 | h1
        · exact absurd h1.symm ha
        · exact h1
      cases hca : colScan env false syn cset a (proxyFks env a) with
      | error e => cases e; simp [omitScan, hca]
      | ok b => simp [omitScan, hca, ih _ hm]

/-- C2: the result of `reduce_columns` is an insertion-order-preserving
subset of the (deduplicated) input columns, and on the specification's
example — `t1.id`, `t2.id`, `t2.t1_id` with `t2.t1_id` a foreign key to
`t1.id` and the join clause `t1.id == t2.t1_id` — it removes exactly
`t2.t1_id`.  The third conjunct observes the reverse-insertion-order
scan of the join-clause phase: with two aliases of one base column
equated, the later column (id 2) is the first structural match of the
reversed scan and is the one removed. -/
theorem claim_C2_reduce_columns :
    (∀ (env : ColEnv) (columns : List Nat) (clauses : List (List BinaryExpr))
        (ign syn : Bool) (r : List Nat),
      reduce_columns env columns clauses ign syn = .ok r →
      r.Sublist (orderedDedup columns)) ∧
    reduce_columns envC2 [1, 2, 3] [[⟨BOp.eq, 1, 3⟩]] false false = .ok [1, 2] ∧
    reduce_columns envC2b [1, 2] [[⟨BOp.eq, 1, 2⟩]] false false = .ok [1] := by
  refine ⟨?_, by rfl, by rfl⟩
  intro env columns clauses ign syn r h
  unfold reduce_columns at h
  cases ho : omitScan env ign syn (csetNoText env columns)
      (csetNoText env columns) [] with
  | error e => rw [ho] at h; cases h
  | ok oset =>
    rw [ho] at h
    simp only [Except.ok.injEq] at h
    rw [← h]
    exact List.filter_sublist _

/-- Witness for C2: the sublist property applied at the specification's
concrete example. -/
theorem claim_C2_witness :
    List.Sublist [1, 2] (orderedDedup [1, 2, 3]) :=
  (claim_C2_reduce_columns).1 envC2 [1, 2, 3] [[⟨BOp.eq, 1, 3⟩]] false false
    [1, 2] (by rfl)

/-- C8 counterexample: column 7 carries a foreign key whose referenced
column is unresolvable and the ignore flag is not set, yet
`reduce_columns` completes normally — the foreign key is only resolved
while scanning some other column of the set, and the set is a
singleton. -/
theorem claim_C8_counterexample :
    envC8.fks 7 = [none] ∧
    reduce_columns envC8 [7] [] false false = .ok [7] := by
  constructor
  · rfl
  · rfl

/-- C8 amended: with the ignore flag set, `reduce_columns` always
completes (unresolvable foreign keys are silently skipped); without it,
an unresolvable foreign key raises the unresolved-reference error
exactly when the scan reaches it, i.e. when the deduplicated non-text
column set contains at least one column other than the foreign key's
owner.  (The embedding is pure, so the input collection is never
mutated, error or not.) -/
theorem claim_C8_unresolved_fk (env : ColEnv) (columns : List Nat)
    (clauses : List (List BinaryExpr)) (syn : Bool) :
    (∃ r, reduce_columns env columns clauses true syn = .ok r) ∧
    (∀ col c', col ∈ csetNoText env columns → c' ∈ csetNoText env columns →
      c' ≠ col → none ∈ proxyFks env col →
      reduce_columns env columns clauses false syn = .error ()) := by
  constructor
  · obtain ⟨r, hr⟩ := omitScan_ignore_ok env syn (csetNoText env columns)
      (csetNoText env columns) []
    exact ⟨_, by unfold reduce_columns; rw [hr]⟩
  · intro col c' hcol hc' hne hfk
    have h2 := colScan_error env syn (csetNoText env columns) col c' hc' hne
      (proxyFks env col) hfk
    have h3 := omitScan_error env syn (csetNoText env columns) col h2
      (csetNoText env columns) [] hcol
    unfold reduce_columns
    rw [h3]

/-- Witness for C8: with the ignore flag the singleton call completes;
without it, adding a second column (id 8) makes the same unresolvable
foreign key fatal. -/
theorem claim_C8_witness :
    (∃ r, reduce_columns envC8 [7] [] true false = .ok r) ∧
    reduce_columns envC8 [7, 8] [] false false = .error () := by
  constructor
  · exact (claim_C8_unresolved_fk envC8 [7] [] false).1
  · exact (claim_C8_unresolved_fk envC8 [7, 8] [] false).2 7 8
      (by decide) (by decide) (by decide) (by decide)

/-- C7 counterexample: both consider-as sets are supplied, one of them
empty; the guard tests Python truthiness, the empty set is falsy, and
the call completes without the claimed `ArgumentError`. -/
theorem claim_C7_counterexample :
    criterion_as_pairs (fun _ _ => false) [] (some []) (some [5]) false =
      .ok [] := rfl

/-- C7 amended: `criterion_as_pairs` raises `ArgumentError` exactly
when both consider-as sets are supplied and non-empty (truthy); a
supplied empty set is treated as not supplied at all. -/
theorem claim_C7_mutually_exclusive (references : Nat → Nat → Bool)
    (binaries : List BinaryExpr) (cafk cark : Option (List Nat))
    (anyOp : Bool) (h1 : truthy cafk = true) (h2 : truthy cark = true) :
    criterion_as_pairs references binaries cafk cark anyOp = .error () := by
  simp [criterion_as_pairs, h1, h2]

/-- Witness for C7: two non-empty consider-as sets do raise. -/
theorem claim_C7_witness :
    criterion_as_pairs (fun _ _ => false) [] (some [1]) (some [5]) false =
      .error () :=
  claim_C7_mutually_exclusive (fun _ _ => false) [] (some [1]) (some [5])
    false rfl rfl

theorem pushResult_snd_nodup (cols result : List OExpr) (u : OExpr)
    (h1 : result.Nodup) (h2 : ∀ x ∈ result, x ∈ cols) :
    (pushResult cols result u).2.Nodup := by
  by_cases h : u ∈ cols
  · simpa [pushResult, h] using h1
  · simp only [pushResult, h, if_neg, if_false]
    refine List.nodup_append.mpr ⟨h1, List.nodup_singleton u, ?_⟩
    intro a ha hb
    simp at hb
    subst hb
    exact h (h2 a ha)

theorem pushResult_mem (cols result : List OExpr) (u : OExpr)
    (h2 : ∀ x ∈ result, x ∈ cols) :
    ∀ x ∈ (pushResult cols result u).2, x ∈ (pushResult cols result u).1 := by
  intro x hx
  by_cases h : u ∈ cols
  · simp [pushResult, h] at hx ⊢
    exact h2 x hx
  · simp [pushResult, h] at hx ⊢
    rcases hx with hx | hx
    · exact Or.inr (h2 x hx)
    · exact Or.inl hx

theorem unwrapLoop_nodup :
    ∀ (q cols result : List OExpr), result.Nodup →
    (∀ x ∈ result, x ∈ cols) → (unwrapLoop q cols result).Nodup := by
  intro q cols result
  induction q, cols, result using unwrapLoop.induct
  all_goals intro h1 h2
  all_goals simp only [unwrapLoop]
  all_goals try solve_by_elim [pushResult_snd_nodup, pushResult_mem]
  all_goals rename_i ih
  all_goals exact ih (pushResult_snd_nodup _ _ _ h1 h2) (pushResult_mem _ _ _ h2)

/-- C5: `unwrap_order_by` returns a duplicate-free sequence for every
order-by expression; it strips ordering modifiers
(`unwrap_order_by(column.desc()) = [column]`) and label indirection
(`unwrap_order_by(label("x", column).desc()) = [column]`); textual
label references are dropped; a scalar subquery wrapped in a label is
kept as the labelled unit; and elements are recorded deduplicated, in
first-encounter order. -/
theorem claim_C5_unwrap_order_by :
    (∀ clause : OExpr, (unwrap_order_by clause).Nodup) ∧
    unwrap_order_by (.unary true (.col 1)) = [.col 1] ∧
    unwrap_order_by (.unary true (.label "x" (.col 1))) = [.col 1] ∧
    unwrap_order_by (.textLabelRef "n") = [] ∧
    unwrap_order_by (.unary true (.textLabelRef "n")) = [] ∧
    unwrap_order_by (.label "y" (.scalarSelect 0)) =
      [.label "y" (.scalarSelect 0)] ∧
    unwrap_order_by (.clauseList (.unary true (.col 1)) (.col 1)) =
      [.col 1] ∧
    unwrap_order_by (.clauseList (.col 2) (.col 1)) = [.col 2, .col 1] := by
  refine ⟨?_, ?_, ?_, ?_, ?_, ?_, ?_, ?_⟩
  · intro clause
    exact unwrapLoop_nodup [clause] [] [] List.nodup_nil (by simp)
  all_goals simp [unwrap_order_by, unwrapLoop, pushResult]

theorem sliceOffset_lit (base : Option Int) (st : Int) :
    sliceOffset (base.map OLC.lit) st =
      if base.getD 0 + st = 0 then none
      else some (.lit (base.getD 0 + st)) := by
  cases base with
  | none =>
    by_cases h : st = 0 <;>
      simp [sliceOffset, asintIfPossible, olcAdd, olcEqZero,
        offsetOrLimitClause, h]
  | some b =>
    by_cases h : st = 0 <;>
      simp [sliceOffset, asintIfPossible, olcAdd, olcEqZero,
        offsetOrLimitClause, h]

/-- C6: `_make_slice` converts slice bounds to a limit/offset pair:
with both bounds given the limit is `stop - start` and the offset
accumulates arithmetically (base offset + start) for plain-integer
offsets, a zero accumulated offset being emitted as no offset clause;
with only `stop` given the limit is `stop` and the offset passes
through unchanged; with only `start` given the limit passes through and
only the offset is recomputed; a SQL-expression offset defers the
addition to a SQL-level expression.  In particular
`_make_slice(None, None, 2, 5)` is `(limit 3, offset 2)` and
`_make_slice(None, None, None, 10)` is `(limit 10, no offset)`. -/
theorem claim_C6_make_slice :
    (∀ (L : Option OLC) (base : Option Int) (st sp : Int),
      _make_slice L (base.map OLC.lit) (some st) (some sp) =
        (some (.lit (sp - st)),
          if base.getD 0 + st = 0 then none
          else some (.lit (base.getD 0 + st)))) ∧
    (∀ (L O : Option OLC) (sp : Int),
      _make_slice L O none (some sp) = (some (.lit sp), O)) ∧
    (∀ (L : Option OLC) (base : Option Int) (st : Int),
      _make_slice L (base.map OLC.lit) (some st) none =
        (L, if base.getD 0 + st = 0 then none
            else some (.lit (base.getD 0 + st)))) ∧
    (∀ (L : Option OLC) (e : Nat) (st sp : Int), st ≠ 0 →
      _make_slice L (some (.sqlExpr e)) (some st) (some sp) =
        (some (.lit (sp - st)), some (.add (.sqlExpr e) st))) ∧
    _make_slice none none (some 2) (some 5) =
      (some (.lit 3), some (.lit 2)) ∧
    _make_slice none none none (some 10) = (some (.lit 10), none) := by
  refine ⟨?_, ?_, ?_, ?_, by rfl, by rfl⟩
  · intro L base st sp
    simp [_make_slice, offsetOrLimitClause, sliceOffset_lit]
  · intro L O sp
    rfl
  · intro L base st
    simp [_make_slice, offsetOrLimitClause, sliceOffset_lit]
  · intro L e st sp h
    simp [_make_slice, sliceOffset, asintIfPossible, olcAdd, olcEqZero,
      offsetOrLimitClause, h]

/-- Witness for C6: a SQL-expression base offset with a non-zero start
defers the addition to a SQL-level expression. -/
theorem claim_C6_witness :
    _make_slice none (some (.sqlExpr 0)) (some 1) (some 4) =
      (some (.lit 3), some (.add (.sqlExpr 0) 1)) :=
  (claim_C6_make_slice).2.2.2.1 none 0 1 4 (by decide)

/-- C10: with both slice bounds absent, `_make_slice` is the identity
on the incoming limit/offset pair. -/
theorem claim_C10_make_slice_identity (L O : Option OLC) :
    _make_slice L O none none = (L, O) := rfl

/-- C9: when an ON clause was supplied and the candidate-narrowing
passes of `find_left_clause_to_join_from` resolve no index at all, the
function returns every index of the clause list; when no ON clause was
supplied and no candidate resolves, it returns the empty list. -/
theorem claim_C9_fallback_all_indexes
    (clauses joinToFroms : List FC) (ocCols : List Nat)
    (canJoin : FC → FC → Bool) :
    (narrowedIdx clauses joinToFroms (some ocCols) canJoin = [] →
      find_left_clause_to_join_from clauses joinToFroms (some ocCols)
        canJoin = List.range clauses.length) ∧
    (narrowedIdx clauses joinToFroms none canJoin = [] →
      find_left_clause_to_join_from clauses joinToFroms none canJoin =
        []) := by
  constructor <;> intro h <;>
    simp [find_left_clause_to_join_from, h]

/-- Witness for C9: a single clause that is itself the only selectable
of the join target yields no candidate; with an ON clause the full
index list `[0]` is returned, without one the empty list. -/
theorem claim_C9_witness :
    find_left_clause_to_join_from [⟨0, [], []⟩] [⟨0, [], []⟩] (some [])
      (fun _ _ => false) = [0] ∧
    find_left_clause_to_join_from [⟨0, [], []⟩] [⟨0, [], []⟩] none
      (fun _ _ => false) = [] := by
  constructor
  · rw [(claim_C9_fallback_all_indexes [⟨0, [], []⟩] [⟨0, [], []⟩] []
      (fun _ _ => false)).1 (by rfl)]
    rfl
  · exact (claim_C9_fallback_all_indexes [⟨0, [], []⟩] [⟨0, [], []⟩] []
      (fun _ _ => false)).2 (by rfl)

/-- Witness for C4: the amended statement applied to the NULL singleton
and a selectable that has a corresponding column for it. -/
theorem claim_C4_witness :
    nullCol.isSingletonConstant = true ∧
    ClauseAdapter.replace corrS4 false nullCol = none ∧
    ColumnAdapter.locate_col corrS4 nullCol = (corrS4 nullCol).getD nullCol := by
  refine ⟨rfl, ?_, ?_⟩
  · exact (claim_C4_singleton_constants corrS4 nullCol rfl).1
  · exact (claim_C4_singleton_constants corrS4 nullCol rfl).2

end SqlAlchemyUtil
